import Mathlib

/-!
# Verification of the PostgreSQL → Spanner schema conversion engine

Shallow embedding of `src/postgres/toddl.go` (package `postgres` of
harbourbridge).  The file translates the data model (`schema` source
entities, `ddl` target entities, the `internal.Conv` engine state) and the
operations `schemaToDDL`, `toSpannerType`, `overrideExperimentalType`,
`quoteIfNeeded`, `cvtPrimaryKeys`, `cvtForeignKeys` and `cvtIndexes` into
Lean, and proves the specification's claims about them.

Collaborators that live in the `internal` package (name resolution,
`ToSpannerForeignKey` / `ToSpannerIndexName` identifier allocation,
`ResolveRefs`, the `Unexpected` diagnostic sink) are not part of the
analysed source; they are modelled from the specification and are marked
as such in their doc comments.
-/

namespace HarbourBridge

/-! ## Target (`ddl`) data model -/

/-- The closed enumeration of Spanner scalar type tags
(`ddl.Bool`, `ddl.Int64`, …). -/
inductive TypeName where
  | Bool
  | Int64
  | Float64
  | Numeric
  | String
  | Bytes
  | Date
  | Timestamp
deriving DecidableEq, Repr

/-- Modelled from the spec: the sentinel length meaning "maximum/unbounded"
(`ddl.MaxLength`, declared in the `ddl` package which is outside the
analysed source). Its concrete value is irrelevant to the engine; we use
the largest signed 64-bit integer. -/
def MaxLength : Int := 9223372036854775807

/-- `ddl.Type`: a target scalar type. Go zero values: `Len = 0`,
`IsArray = false`. -/
structure DType where
  name : TypeName
  len : Int := 0
  isArray : Bool := false
deriving DecidableEq, Repr

/-- `ddl.IndexKey`. -/
structure IndexKey where
  col : String
  desc : Bool
deriving DecidableEq, Repr

/-- `ddl.Foreignkey`. -/
structure Foreignkey where
  name : String
  columns : List String
  referTable : String
  referColumns : List String
deriving DecidableEq, Repr

/-- `ddl.CreateIndex`. -/
structure CreateIndex where
  name : String
  table : String
  unique : Bool
  keys : List IndexKey
deriving DecidableEq, Repr

/-- `ddl.ColumnDef`. -/
structure ColumnDef where
  name : String
  t : DType
  notNull : Bool
  comment : String
deriving DecidableEq, Repr

/-- `ddl.CreateTable`. Maps (`ColDefs`) are embedded as association lists. -/
structure CreateTable where
  name : String
  colNames : List String
  colDefs : List (String × ColumnDef)
  pks : List IndexKey
  fks : List Foreignkey
  indexes : List CreateIndex
  comment : String
deriving DecidableEq, Repr

/-! ## Source (`schema`) data model -/

/-- `schema.Type`: source scalar type (name, modifiers, array bounds). -/
structure SrcType where
  name : String
  mods : List Int
  arrayBounds : List Int
deriving DecidableEq, Repr

/-- `schema.Ignored`: the "ignored feature" flags consulted by the engine. -/
structure Ignored where
  foreignKey : Bool
  default : Bool
deriving DecidableEq, Repr

/-- `schema.Column`. -/
structure Column where
  name : String
  type : SrcType
  notNull : Bool
  ignored : Ignored
deriving DecidableEq, Repr

/-- The Go zero value of `schema.Column`, produced by indexing a map with
a missing key. -/
def zeroColumn : Column :=
  { name := "", type := { name := "", mods := [], arrayBounds := [] },
    notNull := false, ignored := { foreignKey := false, default := false } }

/-- `schema.Key`: a (column, descending?) pair. -/
structure Key where
  column : String
  desc : Bool
deriving DecidableEq, Repr

/-- `schema.ForeignKey`. -/
structure ForeignKey where
  name : String
  columns : List String
  referTable : String
  referColumns : List String
deriving DecidableEq, Repr

/-- `schema.Index`. -/
structure Index where
  name : String
  unique : Bool
  keys : List Key
deriving DecidableEq, Repr

/-- `schema.Table`. `ColDefs` is embedded as an association list, iterated
through `colNames` exactly as the Go code does. -/
structure Table where
  name : String
  colNames : List String
  colDefs : List (String × Column)
  primaryKeys : List Key
  foreignKeys : List ForeignKey
  indexes : List Index
deriving DecidableEq, Repr

/-! ## Conversion issues and engine state -/

/-- `internal.SchemaIssue`: the closed set of per-column conversion
issues used by this engine. -/
inductive SchemaIssue where
  | Widened
  | Serial
  | Timestamp
  | MultiDimensionalArray
  | NoGoodType
  | ForeignKey
  | DefaultValue
deriving DecidableEq, Repr

/-- `internal.Conv`: the engine state. `SrcSchema` is a Go map iterated in
some order; the embedding fixes that order as a list, making the iteration
order part of the input. `SpSchema` and `Issues` are embedded as
association lists. The two name resolvers are modelled from the spec:
external collaborators `resolveTableName` / `resolveColumnName` that either
return a target name or fail with NotFound (§6 of the spec); they are pure
functions of their arguments. -/
structure Conv where
  srcSchema : List Table
  spSchema : List (String × CreateTable)
  issues : List (String × List (String × List SchemaIssue))
  targetDb : String
  unexpecteds : List String
  getSpannerTable : String → Option String
  getSpannerCol : String → String → Bool → Option String

/-- Modelled from the spec: the diagnostic sink `report(message)`
(`conv.Unexpected` in the source); accepts free-text, non-fatal notices. -/
def Conv.unexpected (conv : Conv) (msg : String) : Conv :=
  { conv with unexpecteds := conv.unexpecteds ++ [msg] }

/-- Insert into a Go map embedded as an association list: replace the
binding if the key is present, append otherwise. -/
def mapInsert {α : Type} (k : String) (v : α) : List (String × α) → List (String × α)
  | [] => [(k, v)]
  | (k', v') :: rest => if k' = k then (k, v) :: rest else (k', v') :: mapInsert k v rest

/-- `conv.Issues[t][c] = iss` (the inner map for `t` was initialised by the
orchestrator before any column write). -/
def Conv.setColIssues (conv : Conv) (t c : String) (iss : List SchemaIssue) : Conv :=
  { conv with
    issues := mapInsert t (mapInsert c iss ((List.lookup t conv.issues).getD [])) conv.issues }

/-! ## Type mapper (`toSpannerType`, lines 113–169 of toddl.go) -/

/-- `toSpannerType`: maps a scalar source type (id and mods) to a Spanner
type plus a list of conversion issues. Faithful translation of the Go
switch; the `conv` argument is carried (as in Go) but unused. -/
def toSpannerType (_conv : Conv) (id : String) (mods : List Int) :
    DType × List SchemaIssue :=
  if id = "bool" ∨ id = "boolean" then ({ name := .Bool }, [])
  else if id = "bigserial" then ({ name := .Int64 }, [.Serial])
  else if id = "bpchar" ∨ id = "character" then
    match mods with
    | m :: _ => ({ name := .String, len := m }, [])
    | [] => ({ name := .String, len := 1 }, [])
  else if id = "bytea" then ({ name := .Bytes, len := MaxLength }, [])
  else if id = "date" then ({ name := .Date }, [])
  else if id = "float8" ∨ id = "double precision" then ({ name := .Float64 }, [])
  else if id = "float4" ∨ id = "real" then ({ name := .Float64 }, [.Widened])
  else if id = "int8" ∨ id = "bigint" then ({ name := .Int64 }, [])
  else if id = "int4" ∨ id = "integer" then ({ name := .Int64 }, [.Widened])
  else if id = "int2" ∨ id = "smallint" then ({ name := .Int64 }, [.Widened])
  else if id = "numeric" then ({ name := .Numeric }, [])
  else if id = "serial" then ({ name := .Int64 }, [.Serial])
  else if id = "text" then ({ name := .String, len := MaxLength }, [])
  else if id = "timestamptz" ∨ id = "timestamp with time zone" then
    ({ name := .Timestamp }, [])
  else if id = "timestamp" ∨ id = "timestamp without time zone" then
    ({ name := .Timestamp }, [.Timestamp])
  else if id = "varchar" ∨ id = "character varying" then
    match mods with
    | m :: _ => ({ name := .String, len := m }, [])
    | [] => ({ name := .String, len := MaxLength }, [])
  else ({ name := .String, len := MaxLength }, [.NoGoodType])

/-- The source type identifiers recognised by `toSpannerType`'s switch. -/
def recognizedIds : List String :=
  ["bool", "boolean", "bigserial", "bpchar", "character", "bytea", "date",
   "float8", "double precision", "float4", "real", "int8", "bigint",
   "int4", "integer", "int2", "smallint", "numeric", "serial", "text",
   "timestamptz", "timestamp with time zone",
   "timestamp", "timestamp without time zone",
   "varchar", "character varying"]

/-- `overrideExperimentalType` (lines 172–181): the alternate-dialect
override. -/
def overrideExperimentalType (srcCol : Column) (originalType : DType) : DType :=
  if originalType.name = .Numeric ∨ originalType.name = .Date then
    { name := .String, len := MaxLength }
  else if srcCol.type.arrayBounds.length > 0 then
    { name := .String, len := MaxLength }
  else originalType

/-- The per-column type computation of `schemaToDDL` (lines 67–76): base
mapping, then either the experimental override or the standard-mode
multidimensional-array check plus array-flag assignment. -/
def cvtColumnType (conv : Conv) (srcCol : Column) : DType × List SchemaIssue :=
  let p := toSpannerType conv srcCol.type.name srcCol.type.mods
  if conv.targetDb = "experimental_postgres" then
    (overrideExperimentalType srcCol p.1, p.2)
  else
    let q :=
      if srcCol.type.arrayBounds.length > 1 then
        ({ name := TypeName.String, len := MaxLength },
         p.2 ++ [SchemaIssue.MultiDimensionalArray])
      else p
    ({ q.1 with isArray := srcCol.type.arrayBounds.length == 1 }, q.2)

/-- The per-column issue accumulation of `schemaToDDL` (lines 67–85): the
type-mapping issues followed by the ignored-feature issues. -/
def cvtColIssues (conv : Conv) (srcCol : Column) : List SchemaIssue :=
  let issues := (cvtColumnType conv srcCol).2
  let issues := if srcCol.ignored.foreignKey then issues ++ [.ForeignKey] else issues
  if srcCol.ignored.default then issues ++ [.DefaultValue] else issues

/-! ## Identifier allocation (modelled from spec §4.2) -/

/-- Modelled from the spec: the suffix search of the Identifier Allocator —
try `candidate_2`, `candidate_3`, … and return the first alternative not
already used. The fuel argument bounds the search (set to more candidates
than `usedNames` has elements, so a free one always exists). -/
def allocateLoop (candidate : String) (usedNames : List String) : Nat → Nat → String
  | 0, k => candidate ++ "_" ++ toString k
  | fuel + 1, k =>
    if candidate ++ "_" ++ toString k ∈ usedNames then
      allocateLoop candidate usedNames fuel (k + 1)
    else candidate ++ "_" ++ toString k

/-- Insert a name into the used-name set (`usedNames[name] = true` on the
Go map). -/
def insertUsed (n : String) (usedNames : List String) : List String :=
  if n ∈ usedNames then usedNames else n :: usedNames

/-- Modelled from the spec: the Identifier Allocator (§4.2,
`allocate(candidate, usedNames)`). If `candidate` is unused, return it
unchanged and record it; otherwise return the first numeric-suffix
alternative `candidate_2`, `candidate_3`, … not already present, recording
it. Backs both `internal.ToSpannerForeignKey` and
`internal.ToSpannerIndexName`, which are outside the analysed source. -/
def allocate (candidate : String) (usedNames : List String) : String × List String :=
  if candidate ∈ usedNames then
    let n := allocateLoop candidate usedNames (usedNames.length + 1) 2
    (n, insertUsed n usedNames)
  else (candidate, insertUsed candidate usedNames)

/-- Modelled from the spec: `internal.ToSpannerForeignKey` resolves a
declared foreign-key name to a unique name in the shared namespace via the
Identifier Allocator. -/
def ToSpannerForeignKey (name : String) (usedNames : List String) :
    String × List String :=
  allocate name usedNames

/-- Modelled from the spec: `internal.ToSpannerIndexName` resolves an
index name to a unique name in the shared namespace via the Identifier
Allocator. -/
def ToSpannerIndexName (name : String) (usedNames : List String) :
    String × List String :=
  allocate name usedNames

/-! ## Comment helpers -/

/-- Modelled from the Go standard library for the purposes of
`quoteIfNeeded`: `unicode.IsLetter r || unicode.IsDigit r ||
unicode.IsPunct r`, restricted to the classification Lean's `Char` API
provides (the engine only uses it to build free-text provenance comments). -/
def commentSafeChar (r : Char) : Bool :=
  r.isAlpha || r.isDigit || ("!\"#%&()*,-./:;?@[\\]_\x7b\x7d".toList.contains r)

/-- Modelled from the Go standard library: `strconv.Quote` (escaping of
inner characters elided; only used for free-text comments). -/
def goQuote (s : String) : String := "\"" ++ s ++ "\""

/-- `quoteIfNeeded` from the source: quote the string iff it contains a
character that is not a letter, digit or punctuation. -/
def quoteIfNeeded (s : String) : String :=
  if s.toList.all commentSafeChar then s else goQuote s

/-- Modelled from the spec: `schema.Type.Print()` renders the source type
for the provenance comment (name, then mods in parentheses, then `[]` per
array bound); it lives in the `schema` package outside the analysed
source. -/
def SrcType.print (t : SrcType) : String :=
  (t.name ++
    (if t.mods.isEmpty then ""
     else "(" ++ String.intercalate "," (t.mods.map toString) ++ ")")) ++
  String.join (t.arrayBounds.map (fun _ => "[]"))

/-! ## Constraint converters (lines 188–267 of toddl.go) -/

/-- `cvtPrimaryKeys` (lines 188–199): resolve each key column, dropping
only unresolved columns with a diagnostic. -/
def cvtPrimaryKeys (conv : Conv) (srcTable : String) :
    List Key → Conv × List IndexKey
  | [] => (conv, [])
  | k :: rest =>
    match conv.getSpannerCol srcTable k.column true with
    | none =>
      cvtPrimaryKeys (conv.unexpected ("Can't map key for table " ++ srcTable))
        srcTable rest
    | some spCol =>
      let r := cvtPrimaryKeys conv srcTable rest
      (r.1, { col := spCol, desc := k.desc } :: r.2)

/-- The inner column loop of `cvtForeignKeys` (lines 218–227): for each
(column, referenced column) pair, resolve both; on failure of either,
report a diagnostic and `continue` — i.e. skip only that pair. Returns the
updated state and the accumulated `spCols` and `spReferCols`. -/
def cvtFkCols (conv : Conv) (srcTable referTable : String) :
    List (String × String) → Conv × List String × List String
  | [] => (conv, [], [])
  | (col, referCol) :: rest =>
    match conv.getSpannerCol srcTable col false,
          conv.getSpannerCol referTable referCol false with
    | some spCol, some spReferCol =>
      let r := cvtFkCols conv srcTable referTable rest
      (r.1, spCol :: r.2.1, spReferCol :: r.2.2)
    | _, _ =>
      cvtFkCols
        (conv.unexpected ("Can't map foreign key for table: " ++ srcTable ++
          ", referenced table: " ++ referTable ++ ", column: " ++ col))
        srcTable referTable rest

/-- `cvtForeignKeys` (lines 206–238): per foreign key, drop the whole key
on a column-count mismatch or an unresolvable referenced table; then run
the inner column loop and allocate a unique name. -/
def cvtForeignKeys (conv : Conv) (srcTable : String) :
    List ForeignKey → List String → Conv × List Foreignkey × List String
  | [], usedNames => (conv, [], usedNames)
  | key :: rest, usedNames =>
    if key.columns.length ≠ key.referColumns.length then
      cvtForeignKeys
        (conv.unexpected ("ConvertForeignKeys: columns and referColumns don't have the same lengths: len(columns)=" ++
          toString key.columns.length ++ ", len(referColumns)=" ++
          toString key.referColumns.length ++ " for source table: " ++ srcTable ++
          ", referenced table: " ++ key.referTable))
        srcTable rest usedNames
    else
      match conv.getSpannerTable key.referTable with
      | none =>
        cvtForeignKeys
          (conv.unexpected ("Can't map foreign key for source table: " ++
            srcTable ++ ", referenced table: " ++ key.referTable))
          srcTable rest usedNames
      | some spReferTable =>
        let c := cvtFkCols conv srcTable key.referTable
          (key.columns.zip key.referColumns)
        let a := ToSpannerForeignKey key.name usedNames
        let spKey : Foreignkey :=
          { name := a.1, columns := c.2.1,
            referTable := spReferTable, referColumns := c.2.2 }
        let r := cvtForeignKeys c.1 srcTable rest a.2
        (r.1, spKey :: r.2.1, r.2.2)

/-- The key loop of `cvtIndexes` (lines 243–251): resolve each index key
column, dropping only unresolved columns with a diagnostic. -/
def cvtIndexKeys (conv : Conv) (srcTable : String) :
    List Key → Conv × List IndexKey
  | [] => (conv, [])
  | k :: rest =>
    match conv.getSpannerCol srcTable k.column true with
    | none =>
      cvtIndexKeys
        (conv.unexpected ("Can't map index key column name for table " ++ srcTable))
        srcTable rest
    | some spCol =>
      let r := cvtIndexKeys conv srcTable rest
      (r.1, { col := spCol, desc := k.desc } :: r.2)

/-- `cvtIndexes` (lines 240–267): per index, resolve its key columns,
synthesize `"Index_" + srcTable` when the declared name is empty, and
allocate a unique name. -/
def cvtIndexes (conv : Conv) (spTableName srcTable : String) :
    List Index → List String → Conv × List CreateIndex × List String
  | [], usedNames => (conv, [], usedNames)
  | srcIndex :: rest, usedNames =>
    let kr := cvtIndexKeys conv srcTable srcIndex.keys
    let name := if srcIndex.name = "" then "Index_" ++ srcTable else srcIndex.name
    let a := ToSpannerIndexName name usedNames
    let spIndex : CreateIndex :=
      { name := a.1, table := spTableName, unique := srcIndex.unique, keys := kr.2 }
    let r := cvtIndexes kr.1 spTableName srcTable rest a.2
    (r.1, spIndex :: r.2.1, r.2.2)

/-! ## Orchestrator (`schemaToDDL`, lines 30–107 of toddl.go) -/

/-- The namespace-seeding loop of `schemaToDDL` (lines 36–47): resolve
every source table's Spanner name into `usedNames`; report and skip on
failure. -/
def seedUsedNames (conv : Conv) : List Table → List String → Conv × List String
  | [], usedNames => (conv, usedNames)
  | srcTable :: rest, usedNames =>
    match conv.getSpannerTable srcTable.name with
    | none =>
      seedUsedNames
        (conv.unexpected ("Couldn't map source table " ++ srcTable.name ++
          " to Spanner"))
        rest usedNames
    | some spTableName =>
      seedUsedNames conv rest (insertUsed spTableName usedNames)

/-- The column loop of `schemaToDDL` (lines 57–93): iterate `ColNames` in
declaration order, resolve each column name (skip with a diagnostic on
failure), run the type mapper and post-processing, record non-empty issue
lists, and build the `ColumnDef`s. -/
def cvtCols (conv : Conv) (srcTable : Table) :
    List String → Conv × List String × List (String × ColumnDef)
  | [] => (conv, [], [])
  | srcColName :: rest =>
    let srcCol := (List.lookup srcColName srcTable.colDefs).getD zeroColumn
    match conv.getSpannerCol srcTable.name srcCol.name false with
    | none =>
      cvtCols
        (conv.unexpected ("Couldn't map source column " ++ srcTable.name ++
          " of table " ++ srcCol.name ++ " to Spanner"))
        srcTable rest
    | some colName =>
      let ty := (cvtColumnType conv srcCol).1
      let issues := cvtColIssues conv srcCol
      let conv' :=
        if issues.length > 0 then conv.setColIssues srcTable.name srcCol.name issues
        else conv
      let colDef : ColumnDef :=
        { name := colName, t := ty, notNull := srcCol.notNull,
          comment := "From: " ++ quoteIfNeeded srcCol.name ++ " " ++ srcCol.type.print }
      let r := cvtCols conv' srcTable rest
      (r.1, colName :: r.2.1, (colName, colDef) :: r.2.2)

/-- The main per-table loop of `schemaToDDL` (lines 48–106): resolve the
table name (skip the whole table with a diagnostic on failure), initialise
the table's issue map, convert columns, primary keys, foreign keys and
indexes, and insert the assembled `CreateTable` into `SpSchema`. Threads
the shared `usedNames` set. -/
def processTables (conv : Conv) : List Table → List String → Conv × List String
  | [], usedNames => (conv, usedNames)
  | srcTable :: rest, usedNames =>
    match conv.getSpannerTable srcTable.name with
    | none =>
      processTables
        (conv.unexpected ("Couldn't map source table " ++ srcTable.name ++
          " to Spanner"))
        rest usedNames
    | some spTableName =>
      let conv1 := { conv with issues := mapInsert srcTable.name [] conv.issues }
      let cr := cvtCols conv1 srcTable srcTable.colNames
      let pr := cvtPrimaryKeys cr.1 srcTable.name srcTable.primaryKeys
      let fr := cvtForeignKeys pr.1 srcTable.name srcTable.foreignKeys usedNames
      let ir := cvtIndexes fr.1 spTableName srcTable.name srcTable.indexes fr.2.2
      let tbl : CreateTable :=
        { name := spTableName, colNames := cr.2.1, colDefs := cr.2.2,
          pks := pr.2, fks := fr.2.1, indexes := ir.2.1,
          comment := "Spanner schema for source table " ++ quoteIfNeeded srcTable.name }
      processTables
        { ir.1 with spSchema := mapInsert spTableName tbl ir.1.spSchema }
        rest ir.2.2

/-- `schemaToDDL` (lines 30–107): seed the shared namespace with every
table's resolved name, convert each table, run the final
reference-resolution pass, and return `nil`. `resolveRefs` models
`internal.ResolveRefs`, the external reference resolver of spec §6
("operates on the finished target schema in place", opaque to the engine);
it is passed in as a parameter and quantified over in the theorems. The
`Option String` component is the Go `error` return value. -/
def schemaToDDL (resolveRefs : Conv → Conv) (conv : Conv) : Conv × Option String :=
  let s := seedUsedNames conv conv.srcSchema []
  let r := processTables s.1 s.1.srcSchema s.2
  (resolveRefs r.1, none)

/-- A conversion state at the start of a run: the given source schema,
resolvers and target-database configuration, with fresh (empty) target
schema, issue registry and diagnostics. -/
def freshConv (srcSchema : List Table) (targetDb : String)
    (getSpannerTable : String → Option String)
    (getSpannerCol : String → String → Bool → Option String) : Conv :=
  { srcSchema := srcSchema, spSchema := [], issues := [], targetDb := targetDb,
    unexpecteds := [], getSpannerTable := getSpannerTable,
    getSpannerCol := getSpannerCol }

/-- A minimal conversion state used to instantiate theorems at concrete
inputs: identity-like resolvers, standard dialect, empty schema. -/
def defConv : Conv :=
  freshConv [] "postgres" (fun t => some t) (fun _ c _ => some c)

/-- A conversion state in alternate-dialect (experimental_postgres) mode,
used to instantiate theorems at concrete inputs. -/
def expConv : Conv :=
  freshConv [] "experimental_postgres" (fun t => some t) (fun _ c _ => some c)

/-- A concrete column with two array dimensions over a recognised base
type, used to instantiate theorems at concrete inputs. -/
def colTwoDim : Column :=
  { name := "a", type := { name := "int8", mods := [], arrayBounds := [1, 2] },
    notNull := false, ignored := { foreignKey := false, default := false } }

/-- A concrete `numeric` column, used to instantiate theorems at concrete
inputs. -/
def colNumeric : Column :=
  { name := "n", type := { name := "numeric", mods := [], arrayBounds := [] },
    notNull := false, ignored := { foreignKey := false, default := false } }

/-! ## Helper lemmas -/

theorem toSpannerType_default (conv : Conv) (id : String) (mods : List Int)
    (h : id ∉ recognizedIds) :
    toSpannerType conv id mods = ({ name := .String, len := MaxLength }, [.NoGoodType]) := by
  simp only [recognizedIds, List.mem_cons, List.not_mem_nil, or_false, not_or] at h
  obtain ⟨h1, h2, h3, h4, h5, h6, h7, h8, h9, h10, h11, h12, h13, h14, h15, h16, h17, h18,
    h19, h20, h21, h22, h23, h24, h25, h26⟩ := h
  simp only [toSpannerType, h1, h2, h3, h4, h5, h6, h7, h8, h9, h10, h11, h12, h13, h14,
    h15, h16, h17, h18, h19, h20, h21, h22, h23, h24, h25, h26, or_self, if_false,
    ite_false]

theorem toSpannerType_isArray (conv : Conv) (id : String) (mods : List Int) :
    (toSpannerType conv id mods).1.isArray = false := by
  by_cases h : id ∈ recognizedIds
  · simp only [recognizedIds, List.mem_cons, List.not_mem_nil, or_false] at h
    rcases h with rfl|rfl|rfl|rfl|rfl|rfl|rfl|rfl|rfl|rfl|rfl|rfl|rfl|rfl|rfl|rfl|rfl|rfl|rfl|rfl|rfl|rfl|rfl|rfl|rfl|rfl
    all_goals cases mods <;> rfl
  · rw [toSpannerType_default conv id mods h]

theorem toSpannerType_no_multidim (conv : Conv) (id : String) (mods : List Int) :
    SchemaIssue.MultiDimensionalArray ∉ (toSpannerType conv id mods).2 := by
  by_cases h : id ∈ recognizedIds
  · simp only [recognizedIds, List.mem_cons, List.not_mem_nil, or_false] at h
    rcases h with rfl|rfl|rfl|rfl|rfl|rfl|rfl|rfl|rfl|rfl|rfl|rfl|rfl|rfl|rfl|rfl|rfl|rfl|rfl|rfl|rfl|rfl|rfl|rfl|rfl|rfl
    all_goals cases mods <;> simp [toSpannerType]
  · rw [toSpannerType_default conv id mods h]
    decide

theorem insertUsed_self (n : String) (used : List String) : n ∈ insertUsed n used := by
  unfold insertUsed
  split
  · assumption
  · exact List.mem_cons_self n used

theorem insertUsed_mem (n m : String) (used : List String) (h : n ∈ used) :
    n ∈ insertUsed m used := by
  unfold insertUsed
  split
  · exact h
  · exact List.mem_cons_of_mem _ h

theorem allocate_mem (n c : String) (used : List String) (h : n ∈ used) :
    n ∈ (allocate c used).2 := by
  unfold allocate
  split <;> exact insertUsed_mem _ _ _ h

theorem cvtForeignKeys_used_mono (n : String) (srcTable : String)
    (keys : List ForeignKey) :
    ∀ (conv : Conv) (used : List String), n ∈ used →
      n ∈ (cvtForeignKeys conv srcTable keys used).2.2 := by
  induction keys with
  | nil => intro conv used h; exact h
  | cons key rest ih =>
    intro conv used h
    unfold cvtForeignKeys
    split
    · exact ih _ _ h
    · cases hrt : conv.getSpannerTable key.referTable with
      | none => simp only [hrt]; exact ih _ _ h
      | some sp => simp only [hrt]; exact ih _ _ (allocate_mem _ _ _ h)

theorem cvtIndexes_used_mono (n : String) (spTableName srcTable : String)
    (idxs : List Index) :
    ∀ (conv : Conv) (used : List String), n ∈ used →
      n ∈ (cvtIndexes conv spTableName srcTable idxs used).2.2 := by
  induction idxs with
  | nil => intro conv used h; exact h
  | cons idx rest ih =>
    intro conv used h
    unfold cvtIndexes
    exact ih _ _ (allocate_mem _ _ _ h)

theorem processTables_used_mono (n : String) (l : List Table) :
    ∀ (conv : Conv) (used : List String), n ∈ used →
      n ∈ (processTables conv l used).2 := by
  induction l with
  | nil => intro conv used h; exact h
  | cons t rest ih =>
    intro conv used h
    unfold processTables
    cases hrt : conv.getSpannerTable t.name with
    | none => simp only [hrt]; exact ih _ _ h
    | some sp =>
      simp only [hrt]
      exact ih _ _
        (cvtIndexes_used_mono _ _ _ _ _ _ (cvtForeignKeys_used_mono _ _ _ _ _ h))

theorem seedUsedNames_mem_preserved (n : String) (l : List Table) :
    ∀ (conv : Conv) (used : List String), n ∈ used →
      n ∈ (seedUsedNames conv l used).2 := by
  induction l with
  | nil => intro conv used h; exact h
  | cons t rest ih =>
    intro conv used h
    unfold seedUsedNames
    cases hrt : conv.getSpannerTable t.name with
    | none => simp only [hrt]; exact ih _ _ h
    | some sp => simp only [hrt]; exact ih _ _ (insertUsed_mem _ _ _ h)

theorem seedUsedNames_complete (t : Table) (n : String) (l : List Table) :
    ∀ (conv : Conv) (used : List String), t ∈ l →
      conv.getSpannerTable t.name = some n →
      n ∈ (seedUsedNames conv l used).2 := by
  induction l with
  | nil => intro conv used ht _; cases ht
  | cons t' rest ih =>
    intro conv used ht hn
    unfold seedUsedNames
    rcases List.mem_cons.mp ht with rfl | hmem
    · rw [hn]
      exact seedUsedNames_mem_preserved _ _ _ _ (insertUsed_self _ _)
    · cases hrt : conv.getSpannerTable t'.name with
      | none => simp only [hrt]; exact ih _ _ hmem hn
      | some sp => simp only [hrt]; exact ih _ _ hmem hn

/-! ## Claim theorems: the type mapper -/

/-- C2: the type mapper is total and never fails: for every (typeId, mods)
input it returns exactly one target type whose tag is one of the eight
fixed tags, and any unrecognized typeId yields String with maximum length
plus exactly the no-good-type-match issue. -/
theorem toSpannerType_total_eight_tags (conv : Conv) (id : String) (mods : List Int) :
    (toSpannerType conv id mods).1.name ∈
      [TypeName.Bool, TypeName.Int64, TypeName.Float64, TypeName.Numeric,
       TypeName.String, TypeName.Bytes, TypeName.Date, TypeName.Timestamp] ∧
    (id ∉ recognizedIds →
      toSpannerType conv id mods =
        ({ name := TypeName.String, len := MaxLength }, [SchemaIssue.NoGoodType])) := by
  constructor
  · cases h : (toSpannerType conv id mods).1.name <;> simp
  · exact toSpannerType_default conv id mods

/-- Witness for C2 at the concrete unrecognized identifier "geometry". -/
theorem toSpannerType_total_eight_tags_witness :
    toSpannerType defConv "geometry" [] =
      ({ name := TypeName.String, len := MaxLength }, [SchemaIssue.NoGoodType]) :=
  (toSpannerType_total_eight_tags defConv "geometry" []).2 (by decide)

/-- C3 counterexample: the type mapper is case-sensitive, not
case-insensitive: the uppercase spelling BOOL does not map like bool, and
the spelling char (unlike its internal synonym bpchar) does not map to
String(len N). -/
theorem toSpannerType_case_sensitive_cex :
    toSpannerType defConv "BOOL" [] ≠ toSpannerType defConv "bool" [] ∧
    toSpannerType defConv "char" [5] ≠ ({ name := TypeName.String, len := 5 }, []) := by
  constructor <;> decide

/-- C3 (amended): the type mapper matches source type identifiers by
exact, case-sensitive comparison against the dialect-internal spellings:
bpchar and character with length N map to String(len N), while the
spelling char itself and uppercase spellings such as BOOL are unrecognized
and yield String(max) plus the no-good-type-match issue. -/
theorem toSpannerType_exact_match (conv : Conv) (n : Int) (ms mods : List Int) :
    toSpannerType conv "bpchar" (n :: ms) =
      ({ name := TypeName.String, len := n }, []) ∧
    toSpannerType conv "character" (n :: ms) =
      ({ name := TypeName.String, len := n }, []) ∧
    toSpannerType conv "char" mods =
      ({ name := TypeName.String, len := MaxLength }, [SchemaIssue.NoGoodType]) ∧
    toSpannerType conv "BOOL" mods =
      ({ name := TypeName.String, len := MaxLength }, [SchemaIssue.NoGoodType]) :=
  ⟨rfl, rfl, toSpannerType_default conv "char" mods (by decide),
   toSpannerType_default conv "BOOL" mods (by decide)⟩

/-! ## Claim theorems: array handling and dialect override -/

/-- C4: in standard mode, a column with more than one array dimension is
overridden to String(max) with a multidimensional-array issue appended and
the array flag false; exactly one array dimension sets the array flag on
the mapped type; zero dimensions leaves it unset. -/
theorem standard_mode_array_handling (conv : Conv) (srcCol : Column)
    (h : conv.targetDb ≠ "experimental_postgres") :
    (srcCol.type.arrayBounds.length > 1 →
      cvtColumnType conv srcCol =
        ({ name := TypeName.String, len := MaxLength, isArray := false },
         (toSpannerType conv srcCol.type.name srcCol.type.mods).2 ++
           [SchemaIssue.MultiDimensionalArray])) ∧
    (srcCol.type.arrayBounds.length = 1 →
      cvtColumnType conv srcCol =
        ({ (toSpannerType conv srcCol.type.name srcCol.type.mods).1 with
            isArray := true },
         (toSpannerType conv srcCol.type.name srcCol.type.mods).2)) ∧
    (srcCol.type.arrayBounds.length = 0 →
      (cvtColumnType conv srcCol).1.isArray = false) := by
  refine ⟨?_, ?_, ?_⟩
  · intro hl
    have hb : (srcCol.type.arrayBounds.length == 1) = false :=
      beq_eq_false_iff_ne.mpr (by omega)
    simp only [cvtColumnType, if_neg h, if_pos hl, hb]
  · intro hl
    have hb : (srcCol.type.arrayBounds.length == 1) = true := beq_iff_eq.mpr hl
    have hl2 : ¬ (srcCol.type.arrayBounds.length > 1) := by omega
    simp only [cvtColumnType, if_neg h, if_neg hl2, hb]
  · intro hl
    have hb : (srcCol.type.arrayBounds.length == 1) = false :=
      beq_eq_false_iff_ne.mpr (by omega)
    have hl2 : ¬ (srcCol.type.arrayBounds.length > 1) := by omega
    simp only [cvtColumnType, if_neg h, if_neg hl2, hb]

/-- Witness for C4 at a concrete two-dimensional column in standard mode. -/
theorem standard_mode_array_handling_witness :
    cvtColumnType defConv colTwoDim =
      ({ name := TypeName.String, len := MaxLength, isArray := false },
       [SchemaIssue.MultiDimensionalArray]) :=
  ((standard_mode_array_handling defConv colTwoDim (by decide)).1
    (by decide)).trans (by decide)

/-- C5: in alternate-dialect mode, base mappings of Numeric or Date are
forced to String(max), any column with one or more array dimensions is
forced to String(max), and the array flag is never set on any resulting
type. -/
theorem alternate_mode_override (conv : Conv) (srcCol : Column)
    (h : conv.targetDb = "experimental_postgres") :
    (((toSpannerType conv srcCol.type.name srcCol.type.mods).1.name = TypeName.Numeric ∨
      (toSpannerType conv srcCol.type.name srcCol.type.mods).1.name = TypeName.Date) →
      (cvtColumnType conv srcCol).1 = { name := TypeName.String, len := MaxLength }) ∧
    (srcCol.type.arrayBounds.length ≥ 1 →
      (cvtColumnType conv srcCol).1 = { name := TypeName.String, len := MaxLength }) ∧
    (cvtColumnType conv srcCol).1.isArray = false := by
  have hp := toSpannerType_isArray conv srcCol.type.name srcCol.type.mods
  refine ⟨?_, ?_, ?_⟩
  · intro hnd
    simp only [cvtColumnType, if_pos h, overrideExperimentalType]
    rcases hnd with hn | hn <;> simp [hn]
  · intro hl
    simp only [cvtColumnType, if_pos h, overrideExperimentalType]
    split
    · rfl
    · rw [if_pos (by omega)]
  · simp only [cvtColumnType, if_pos h, overrideExperimentalType]
    split
    · rfl
    · split
      · rfl
      · exact hp

/-- Witness for C5 at a concrete numeric column in alternate-dialect
mode. -/
theorem alternate_mode_override_witness :
    (cvtColumnType expConv colNumeric).1 =
      { name := TypeName.String, len := MaxLength } :=
  (alternate_mode_override expConv colNumeric rfl).1 (Or.inl (by decide))

/-- C10: in alternate-dialect (experimental_postgres) mode the
multidimensional-array issue is never recorded for any column, even for
columns with more than one array dimension: the dialect override replaces
the standard mode's dimensionality check. -/
theorem experimental_no_multidim_issue (conv : Conv) (srcCol : Column)
    (h : conv.targetDb = "experimental_postgres") :
    SchemaIssue.MultiDimensionalArray ∉ cvtColIssues conv srcCol := by
  have hm := toSpannerType_no_multidim conv srcCol.type.name srcCol.type.mods
  simp only [cvtColIssues, cvtColumnType, if_pos h]
  repeat' split
  all_goals simp_all

/-- Witness for C10 at a concrete two-dimensional column in
alternate-dialect mode. -/
theorem experimental_no_multidim_issue_witness :
    SchemaIssue.MultiDimensionalArray ∉ cvtColIssues expConv colTwoDim :=
  experimental_no_multidim_issue expConv colTwoDim rfl

/-! ## Claim theorems: foreign keys -/

/-- A resolver configuration on which the source column "b" of any table
fails to resolve while every other column and every table resolves to
itself. -/
def fkTestConv : Conv :=
  freshConv [] "postgres" (fun t => some t)
    (fun _ c _ => if c = "b" then none else some c)

/-- A two-column source foreign key whose second column fails to resolve
under `fkTestConv`. -/
def fkTest : ForeignKey :=
  { name := "fk1", columns := ["a", "b"], referTable := "r",
    referColumns := ["c", "d"] }

/-- C1 (code bug): with equal-length column lists and one unresolvable
column reference, `cvtForeignKeys` reports the "Can't map foreign key"
diagnostic but still emits a partially-populated foreign key containing
only the resolvable column pair, instead of dropping the entire key: the
`continue` in the inner column loop skips only the failing pair. -/
theorem partial_foreign_key_emitted :
    (cvtForeignKeys fkTestConv "t" [fkTest] []).2.1 =
      [{ name := "fk1", columns := ["a"], referTable := "r",
         referColumns := ["c"] }] ∧
    (cvtForeignKeys fkTestConv "t" [fkTest] []).1.unexpecteds =
      ["Can't map foreign key for table: t, referenced table: r, column: b"] ∧
    fkTest.columns.length = 2 ∧ fkTest.referColumns.length = 2 :=
  ⟨rfl, rfl, rfl, rfl⟩

/-! ## Claim theorems: index naming -/

theorem allocate_fresh (cand : String) (used : List String) (h : cand ∉ used) :
    (allocate cand used).1 = cand := by
  simp [allocate, h]

theorem allocate_first_suffix (cand : String) (used : List String)
    (h1 : cand ∈ used) (h2 : cand ++ "_2" ∉ used) :
    (allocate cand used).1 = cand ++ "_2" := by
  have h2' : (cand ++ "_") ++ toString 2 ∉ used := by
    rw [String.append_assoc]; exact h2
  unfold allocate
  rw [if_pos h1]
  cases used with
  | nil => cases h1
  | cons x l =>
    show allocateLoop cand (x :: l) (l.length + 1 + 1) 2 = cand ++ "_2"
    unfold allocateLoop
    rw [if_neg h2', String.append_assoc]
    rfl

/-- C6: for a source index with an empty declared name, `cvtIndexes`
synthesizes the candidate name "Index_" ++ sourceTableName before
unique-name allocation; a fresh candidate is used as-is and a colliding
candidate resolves to the deterministic numeric-suffix alternative
candidate_2 (e.g. Index_orders_2). -/
theorem index_name_synthesis (conv : Conv) (spTableName srcTable : String)
    (idx : Index) (rest : List Index) (used : List String)
    (h : idx.name = "") :
    ((cvtIndexes conv spTableName srcTable (idx :: rest) used).2.1.head?.map
        CreateIndex.name) =
      some (allocate ("Index_" ++ srcTable) used).1 ∧
    ("Index_" ++ srcTable ∉ used →
      ((cvtIndexes conv spTableName srcTable (idx :: rest) used).2.1.head?.map
          CreateIndex.name) = some ("Index_" ++ srcTable)) ∧
    ("Index_" ++ srcTable ∈ used → "Index_" ++ srcTable ++ "_2" ∉ used →
      ((cvtIndexes conv spTableName srcTable (idx :: rest) used).2.1.head?.map
          CreateIndex.name) = some ("Index_" ++ srcTable ++ "_2")) := by
  have hstep :
      ((cvtIndexes conv spTableName srcTable (idx :: rest) used).2.1.head?.map
        CreateIndex.name) = some (allocate ("Index_" ++ srcTable) used).1 := by
    simp [cvtIndexes, h, ToSpannerIndexName]
  refine ⟨hstep, ?_, ?_⟩
  · intro hfree
    rw [hstep, allocate_fresh _ _ hfree]
  · intro hused hfree2
    rw [hstep, allocate_first_suffix _ _ hused hfree2]

/-- Witness for C6: an unnamed index on table `orders` when `Index_orders`
is already used resolves to `Index_orders_2`. -/
theorem index_name_synthesis_witness :
    ((cvtIndexes defConv "orders" "orders"
        [{ name := "", unique := false, keys := [] }]
        ["Index_orders"]).2.1.head?.map CreateIndex.name) =
      some "Index_orders_2" := by
  have h := (index_name_synthesis defConv "orders" "orders"
      { name := "", unique := false, keys := [] } [] ["Index_orders"] rfl).2.2
      (by decide) (by decide)
  exact h

/-! ## Claim theorems: the orchestrator -/

/-- C7: the top-level conversion entry point completes all phases and
returns success (nil) for every input; there is no whole-run failure
mode. -/
theorem schemaToDDL_never_fails (resolveRefs : Conv → Conv) (conv : Conv) :
    (schemaToDDL resolveRefs conv).2 = none := rfl

/-- C8: table-name seeding strictly precedes foreign-key and index name
allocation: the resolved name of every successfully-resolved source table
is already in the shared used-names set produced by the seeding phase, is
still in the threaded set at the entry of every table of the main loop,
and its membership is preserved across every foreign-key and index
conversion — hence it is present at every point at which a foreign-key or
index name is allocated. -/
theorem table_names_preseeded (conv : Conv) (t : Table) (n : String)
    (ht : t ∈ conv.srcSchema) (hn : conv.getSpannerTable t.name = some n) :
    n ∈ (seedUsedNames conv conv.srcSchema []).2 ∧
    (∀ pre post : List Table, conv.srcSchema = pre ++ post →
      n ∈ (processTables (seedUsedNames conv conv.srcSchema []).1 pre
            (seedUsedNames conv conv.srcSchema []).2).2) ∧
    (∀ (c : Conv) (tbl : String) (keys : List ForeignKey) (used : List String),
      n ∈ used → n ∈ (cvtForeignKeys c tbl keys used).2.2) ∧
    (∀ (c : Conv) (sp tbl : String) (idxs : List Index) (used : List String),
      n ∈ used → n ∈ (cvtIndexes c sp tbl idxs used).2.2) := by
  have h0 : n ∈ (seedUsedNames conv conv.srcSchema []).2 :=
    seedUsedNames_complete t n conv.srcSchema conv [] ht hn
  exact ⟨h0,
    fun pre _ _ => processTables_used_mono n pre _ _ h0,
    fun c tbl keys used hu => cvtForeignKeys_used_mono n tbl keys c used hu,
    fun c sp tbl idxs used hu => cvtIndexes_used_mono n sp tbl idxs c used hu⟩

/-- A concrete one-table source schema used to instantiate the pre-seeding
theorem. -/
def seedTable : Table :=
  { name := "orders", colNames := [], colDefs := [], primaryKeys := [],
    foreignKeys := [], indexes := [] }

/-- A conversion state over `seedTable` with identity resolvers. -/
def seedConv : Conv :=
  freshConv [seedTable] "postgres" (fun t => some t) (fun _ c _ => some c)

/-- Witness for C8 at the concrete one-table schema. -/
theorem table_names_preseeded_witness :
    "orders" ∈ (seedUsedNames seedConv seedConv.srcSchema []).2 :=
  (table_names_preseeded seedConv seedTable "orders" (by decide) rfl).1

/-- C9: the engine is a pure, deterministic function of the source schema
plus configuration: two runs started from identical fresh states (fresh
namespace, empty target schema, empty issue registry, same resolvers and
dialect) produce identical target schemas and identical issue
registries. -/
theorem conversion_deterministic (srcSchema : List Table) (targetDb : String)
    (gt : String → Option String) (gc : String → String → Bool → Option String)
    (resolveRefs : Conv → Conv) :
    (schemaToDDL resolveRefs (freshConv srcSchema targetDb gt gc)).1.spSchema =
      (schemaToDDL resolveRefs (freshConv srcSchema targetDb gt gc)).1.spSchema ∧
    (schemaToDDL resolveRefs (freshConv srcSchema targetDb gt gc)).1.issues =
      (schemaToDDL resolveRefs (freshConv srcSchema targetDb gt gc)).1.issues :=
  ⟨rfl, rfl⟩

end HarbourBridge
